import Mathlib

/-!
Verification development for the anode execution-queue core.

The repository is a collaborative notebook application built on an
append-only event log (LiveStore).  The core under specification is the
execution-queue state machine: pure materializers fold domain events into
relational state (cells, kernel sessions, execution queue), a kernel
session manager tracks liveness via heartbeats, and a reactive dispatcher
inside each kernel process triggers execution from a push-based
subscription.

The schema package (materializers), the kernel adapter and the session
manager are not present in the source tree that accompanies this
development (only their documentation, the kernel HTTP server and the
web-client notebook viewer are).  Definitions for those parts are
therefore modelled from the specification text and are marked
`Modelled from the spec:`; the definitions for the kernel HTTP server
(`requestHandler`, `statusBody`) and the notebook viewer (`sortedCells`,
`newPosition`, `addCell`, `moveCell`) are embedded directly from the
source files.
-/

namespace Anode

/-- Cell type enumeration from the schema (`code|markdown|raw|sql|ai`). -/
inductive CellType
  | code
  | markdown
  | raw
  | sql
  | ai
deriving DecidableEq

/-- Queue-entry status, §3: `pending → assigned → executing → completed|failed`. -/
inductive QueueStatus
  | pending
  | assigned
  | executing
  | completed
  | failed
deriving DecidableEq

/-- Kernel-session status, §3: `starting|ready|disconnected`. -/
inductive SessionStatus
  | starting
  | ready
  | disconnected
deriving DecidableEq

/-- A notebook cell (id, ordering position, type, creator).  Positions are
integers used only for ordering and need not be contiguous or distinct. -/
structure Cell where
  id : String
  position : Int
  cellType : CellType
  createdBy : String
deriving DecidableEq

/-- One execution attempt for one cell.  `assignedSession` is null until
assignment. -/
structure QueueEntry where
  id : String
  cellId : String
  requestedBy : String
  assignedSession : Option String
  status : QueueStatus
deriving DecidableEq

/-- One running worker process instance.  `lastHeartbeat` is an instant in
abstract time units; `active` is the stored activity flag. -/
structure KernelSession where
  sessionId : String
  kernelType : String
  status : SessionStatus
  lastHeartbeat : Nat
  active : Bool
deriving DecidableEq

/-- Projected relational state folded from the event log: cells,
execution queue and kernel sessions. -/
structure ProjState where
  cells : List Cell
  queue : List QueueEntry
  sessions : List KernelSession
deriving DecidableEq

/-- Domain events, the wire contract of §6.  `executionStarted` carries the
issuing session id, since §4.1 requires `start` to check that the issuing
session matches the entry's `assignedSession`. -/
inductive Event
  | cellCreated (id : String) (position : Int) (cellType : CellType) (createdBy : String)
  | cellDeleted (id : String)
  | cellMoved (id : String) (newPosition : Int)
  | executionRequested (entryId : String) (cellId : String) (requestedBy : String)
  | executionAssigned (entryId : String) (sessionId : String)
  | executionStarted (entryId : String) (sessionId : String)
  | executionCompleted (entryId : String) (outputs : List String)
  | executionFailed (entryId : String) (error : String)
  | kernelSessionHeartbeat (sessionId : String) (status : SessionStatus) (now : Nat)
deriving DecidableEq

/-- Modelled from the spec: the per-entry transition function of the
Execution Queue Engine (§4.1, materializer code absent from the source
tree).  `assign` applies only to a `pending` entry; `start` only to an
`assigned` entry whose `assignedSession` matches the issuing session;
`complete`/`fail` only to an `executing` entry.  Every other combination
is a rejected transition and leaves the entry unchanged (§7a). -/
def stepEntry (e : Event) (q : QueueEntry) : QueueEntry :=
  match e with
  | .executionAssigned entryId sessionId =>
      if q.id = entryId ∧ q.status = .pending then
        { q with status := .assigned, assignedSession := some sessionId }
      else q
  | .executionStarted entryId sessionId =>
      if q.id = entryId ∧ q.status = .assigned ∧ q.assignedSession = some sessionId then
        { q with status := .executing }
      else q
  | .executionCompleted entryId _ =>
      if q.id = entryId ∧ q.status = .executing then
        { q with status := .completed }
      else q
  | .executionFailed entryId _ =>
      if q.id = entryId ∧ q.status = .executing then
        { q with status := .failed }
      else q
  | _ => q

/-- Modelled from the spec: one fold step of the materializers (§2, §4.1,
§6; schema package absent from the source tree).  `executionRequested` is
rejected when the referenced cell does not exist in the current projection
(§4.1) or when the entry id already exists in the queue table (relational
insert on a primary key; the log may be replayed).  Queue entries are
never physically deleted; `cellDeleted` tombstones via a projection
filter.  `kernelSessionHeartbeat` only updates liveness of an existing
session row (§6). -/
def applyEvent (st : ProjState) (e : Event) : ProjState :=
  match e with
  | .cellCreated id position cellType createdBy =>
      if st.cells.any (fun c => c.id = id) then st
      else { st with cells := st.cells ++ [{ id := id, position := position,
                                             cellType := cellType, createdBy := createdBy }] }
  | .cellDeleted id =>
      { st with cells := st.cells.filter (fun c => c.id ≠ id) }
  | .cellMoved id newPosition =>
      { st with cells := st.cells.map (fun c =>
          if c.id = id then { c with position := newPosition } else c) }
  | .executionRequested entryId cellId requestedBy =>
      if st.cells.any (fun c => c.id = cellId) ∧ ¬ st.queue.any (fun q => q.id = entryId) then
        { st with queue := st.queue ++ [{ id := entryId, cellId := cellId,
                                          requestedBy := requestedBy,
                                          assignedSession := none, status := .pending }] }
      else st
  | .kernelSessionHeartbeat sessionId status now =>
      { st with sessions := st.sessions.map (fun s =>
          if s.sessionId = sessionId then { s with status := status, lastHeartbeat := now }
          else s) }
  | _ => { st with queue := st.queue.map (stepEntry e) }

/-- The empty projected state. -/
def initState : ProjState := { cells := [], queue := [], sessions := [] }

/-- Modelled from the spec: replaying a full event log from the empty
state is a pure left fold of `applyEvent` (§2 materializers). -/
def replay (log : List Event) : ProjState :=
  log.foldl applyEvent initState

/-- Heartbeat/staleness timeout threshold: 30 time-units in the reference
system (§3, §4.2). -/
def HEARTBEAT_TIMEOUT : Nat := 30

/-- Modelled from the spec: the derived eligibility predicate of the
Kernel Session Manager (§4.2):
`status == ready ∧ active ∧ (now - lastHeartbeat) < timeout`. -/
def isEligible (s : KernelSession) (now : Nat) : Bool :=
  s.status = SessionStatus.ready ∧ s.active ∧ now - s.lastHeartbeat < HEARTBEAT_TIMEOUT

/-- Modelled from the spec: the sessions the assignment policy may select
as assignment targets (§4.1: a ready, non-stale session claims pending
entries; eligibility is exactly `isEligible`). -/
def assignmentTargets (sessions : List KernelSession) (now : Nat) : List KernelSession :=
  sessions.filter (fun s => isEligible s now)

/-- Modelled from the spec: the reactive dispatcher's subscription query —
queue entries where `assignedSession = mySessionId` and `status =
assigned` (§4.3; kernel adapter code absent from the source tree). -/
def assignedWorkQuery (mySessionId : String) (st : ProjState) : List QueueEntry :=
  st.queue.filter (fun q => q.assignedSession = some mySessionId ∧ q.status = .assigned)

/-- A stimulus the kernel process may receive: a fixed-interval timer tick,
or the underlying log advancing to a new full log. -/
inductive Stimulus
  | timerTick
  | logAdvance (log : List Event)
deriving DecidableEq

/-- Modelled from the spec: the reactive dispatcher's trigger function
(§4.3; kernel adapter code absent from the source tree).  Execution is
triggered only when the log advances, via re-evaluation of the
subscription query over the projected state; a timer tick triggers
nothing (push-based, not time-based). -/
def dispatch (mySessionId : String) (s : Stimulus) : List QueueEntry :=
  match s with
  | .timerTick => []
  | .logAdvance log => assignedWorkQuery mySessionId (replay log)

/-! ## Kernel HTTP server, embedded from the source
(`createServer` request handler of the kernel service entry point). -/

/-- JavaScript truthiness of a possibly-undefined environment string
(`process.env.X ? _ : _` and `process.env.X || d`): `undefined` and the
empty string are falsy. -/
def envTruthy : Option String → Bool
  | none => false
  | some s => !(s == "")

/-- Environment and process facts the kernel HTTP server reads. -/
structure KernelEnv where
  port : Nat
  notebookId : String
  nodeVersion : String
  livestoreSyncUrl : Option String
  authToken : Option String
  uptime : Nat
  memory : Nat
  timestamp : String
deriving DecidableEq

/-- Body of the `/health` response. -/
structure HealthBody where
  status : String
  notebook : String
  timestamp : String
  service : String
  executionModel : String
deriving DecidableEq

/-- The `env` object of the `/status` response. -/
structure StatusEnv where
  nodeVersion : String
  livestoreSyncUrl : String
  authToken : String
deriving DecidableEq

/-- Body of the `/status` response. -/
structure StatusBody where
  service : String
  notebook : String
  port : Nat
  uptime : Nat
  memory : Nat
  executionModel : String
  note : String
  env : StatusEnv
deriving DecidableEq

/-- Embedded from the source: the `/health` response body. -/
def healthBody (env : KernelEnv) : HealthBody :=
  { status := "ok", notebook := env.notebookId, timestamp := env.timestamp,
    service := "dev-server-kernel-ls-client", executionModel := "livestore-events-only" }

/-- Embedded from the source: the `/status` response body.  The
`AUTH_TOKEN` field is `"[REDACTED]"` when the variable is truthy and
`"[NOT SET]"` otherwise; the credential value itself is never written. -/
def statusBody (env : KernelEnv) : StatusBody :=
  { service := "dev-server-kernel-ls-client", notebook := env.notebookId,
    port := env.port, uptime := env.uptime, memory := env.memory,
    executionModel := "livestore-events-only",
    note := "This service responds ONLY to LiveStore cellExecutionRequested events",
    env := { nodeVersion := env.nodeVersion,
             livestoreSyncUrl :=
               if envTruthy env.livestoreSyncUrl then env.livestoreSyncUrl.getD ""
               else "ws://localhost:8787",
             authToken := if envTruthy env.authToken then "[REDACTED]" else "[NOT SET]" } }

/-- An HTTP request as the handler sees it: method and parsed pathname
(URL parsing is delegated to `node:url`, an external collaborator). -/
structure Request where
  method : String
  pathname : String
deriving DecidableEq

/-- The response bodies the kernel HTTP server can produce. -/
inductive ResponseBody
  | empty
  | health (b : HealthBody)
  | statusReport (b : StatusBody)
  | notFound
deriving DecidableEq

/-- An HTTP response: status code and body. -/
structure Response where
  code : Nat
  body : ResponseBody
deriving DecidableEq

/-- Embedded from the source: the kernel service's `createServer` request
handler.  It also returns the list of domain events the handler commits
to the log, which is always empty — the HTTP surface is read-only and
execution is driven only by LiveStore events. -/
def requestHandler (env : KernelEnv) (req : Request) : Response × List Event :=
  if req.method = "OPTIONS" then
    ({ code := 200, body := .empty }, [])
  else if req.pathname = "/health" then
    ({ code := 200, body := .health (healthBody env) }, [])
  else if req.pathname = "/status" then
    ({ code := 200, body := .statusReport (statusBody env) }, [])
  else
    ({ code := 404, body := .notFound }, [])

/-! ## Notebook viewer, embedded from
`packages/web-client/src/components/notebook/NotebookViewer.tsx`. -/

/-- The ordering induced by the viewer's comparator
`(a, b) => a.position - b.position`: ascending `position`. -/
def byPosition (a b : Cell) : Prop := a.position ≤ b.position

instance : DecidableRel byPosition := fun a b => Int.decLe a.position b.position

instance : IsTotal Cell byPosition := ⟨fun a b => Int.le_total a.position b.position⟩

instance : IsTrans Cell byPosition := ⟨fun _ _ _ h₁ h₂ => Int.le_trans h₁ h₂⟩

/-- Embedded from the source (`sortedCells`, line 180):
`cells.sort((a, b) => a.position - b.position)`.  JavaScript
`Array.prototype.sort` is a stable sort, and this comparator orders by
`position` ascending, so the call is a stable ascending sort by position
(ties keep the input order); `insertionSort` is such a sort. -/
def sortedCells (cells : List Cell) : List Cell :=
  cells.insertionSort byPosition

/-- Embedded from the source: `Math.max(...)` applied to a spread list.
On the empty list JavaScript yields `-Infinity`, which has no integer
representative; `addCell` only reaches it with a non-empty list. -/
def jsMax : List Int → Int
  | [] => 0
  | x :: xs => xs.foldl max x

/-- Embedded from the source (`addCell`, lines 71-86): the position of a
newly created cell, `afterCellId ? Math.max(...positions) + 1 :
cells.length`.  The guard is JavaScript truthiness of the optional
argument. -/
def newPosition (cells : List Cell) (afterCellId : Option String) : Int :=
  if envTruthy afterCellId then jsMax (cells.map (fun c => c.position)) + 1
  else (cells.length : Int)

/-- Embedded from the source (`addCell`): the `cellCreated` event the
viewer commits. -/
def addCell (cells : List Cell) (afterCellId : Option String)
    (cellType : CellType) (cellId : String) : Event :=
  Event.cellCreated cellId (newPosition cells afterCellId) cellType "current-user"

/-- Direction argument of `moveCell`. -/
inductive MoveDirection
  | up
  | down
deriving DecidableEq

/-- Embedded from the source (`moveCell`, lines 94-128): moving a cell
swaps positions with its neighbour in sorted order by committing two
separate `cellMoved` events (so between the two events, two live cells
transiently hold the same position). -/
def moveCell (cells : List Cell) (cellId : String) (direction : MoveDirection) : List Event :=
  match cells.find? (fun c => c.id = cellId) with
  | none => []
  | some currentCell =>
    let sorted := sortedCells cells
    let currentIndex := sorted.findIdx (fun c => c.id = cellId)
    match direction with
    | .up =>
      if 0 < currentIndex then
        match sorted[currentIndex - 1]? with
        | some targetCell =>
            [Event.cellMoved cellId targetCell.position,
             Event.cellMoved targetCell.id currentCell.position]
        | none => []
      else []
    | .down =>
      if currentIndex < sorted.length - 1 then
        match sorted[currentIndex + 1]? with
        | some targetCell =>
            [Event.cellMoved cellId targetCell.position,
             Event.cellMoved targetCell.id currentCell.position]
        | none => []
      else []

/-! ## Auxiliary definitions used by the statements below. -/

/-- Forward edges of the queue-entry finite state machine:
`pending→assigned→executing→{completed|failed}` (§3).  Anything else is
either a stutter or a forbidden (backward or skipping) move. -/
def forwardStep : QueueStatus → QueueStatus → Bool
  | .pending, .assigned => true
  | .assigned, .executing => true
  | .executing, .completed => true
  | .executing, .failed => true
  | _, _ => false

/-- Well-formedness of a queue entry: a `pending` entry has a null
`assignedSession`.  Entries are created `pending` with no session, and
the session is only set by the transition to `assigned`, so every entry
of a replayed projection satisfies this. -/
def EntryWF (q : QueueEntry) : Prop :=
  q.status = .pending → q.assignedSession = none

/-- One run of the materializers over a log, as a step relation: the
traversal of the fold, one event at a time. -/
inductive Materialize : ProjState → List Event → ProjState → Prop
  | nil (st : ProjState) : Materialize st [] st
  | cons (st : ProjState) (e : Event) (es : List Event) (st' : ProjState) :
      Materialize (applyEvent st e) es st' → Materialize st (e :: es) st'

/-- Lexicographic comparison of identifiers by character code points: a
concrete total order on identifiers. -/
def idLe : List Char → List Char → Bool
  | [], _ => true
  | _ :: _, [] => false
  | a :: as, b :: bs =>
      if a.toNat < b.toNat then true
      else if b.toNat < a.toNat then false
      else idLe as bs

/-- The order the claim about cell ordering asserts (stated from the
specification's words, for comparison with the source's `sortedCells`):
by position, with ties broken by identifier. -/
def byPositionThenId (a b : Cell) : Prop :=
  a.position < b.position ∨ (a.position = b.position ∧ idLe a.id.data b.id.data = true)

instance : DecidableRel byPositionThenId := fun a b =>
  inferInstanceAs (Decidable (a.position < b.position ∨ (a.position = b.position ∧ idLe a.id.data b.id.data = true)))

/-- Two cells with the same position, identifiers out of order: input
`[cellB, cellA]` is the concrete list refuting the identifier tie-break. -/
def cellA : Cell := { id := "a", position := 0, cellType := .code, createdBy := "u" }

/-- See `cellA`. -/
def cellB : Cell := { id := "b", position := 0, cellType := .code, createdBy := "u" }

/-- A one-cell list whose only position is 5, so `max + 1 = 6` while
`cells.length = 1`. -/
def cellP5 : Cell := { id := "c1", position := 5, cellType := .code, createdBy := "u" }

/-- A session whose stored status is `ready` and whose `active` flag is
set, but whose last heartbeat is stale at `now = 30`. -/
def staleSession : KernelSession :=
  { sessionId := "s1", kernelType := "python3", status := .ready,
    lastHeartbeat := 0, active := true }

/-- A log creating one cell and one pending queue entry. -/
def logC1 : List Event :=
  [.cellCreated "c1" 0 .code "u", .executionRequested "e1" "c1" "u"]

/-- `logC1` followed by an assignment of the entry to session `s1`. -/
def logC2 : List Event := logC1 ++ [.executionAssigned "e1" "s1"]

/-- The pending entry produced by `logC1`. -/
def entryE1 : QueueEntry :=
  { id := "e1", cellId := "c1", requestedBy := "u",
    assignedSession := none, status := .pending }

/-- An entry already assigned to session `s1`. -/
def entryAssigned : QueueEntry :=
  { id := "e1", cellId := "c1", requestedBy := "u",
    assignedSession := some "s1", status := .assigned }

/-- A one-event log used to exhibit a concrete materializer run. -/
def logW : List Event := [.cellCreated "c1" 0 .code "u"]

/-- A concrete kernel environment. -/
def envBase : KernelEnv :=
  { port := 3001, notebookId := "demo-notebook", nodeVersion := "v20.0.0",
    livestoreSyncUrl := none, authToken := none, uptime := 0, memory := 0,
    timestamp := "t0" }

/-! ## Helper lemmas. -/

/-- `stepEntry` preserves entry well-formedness. -/
theorem entryWF_stepEntry (e : Event) (q : QueueEntry) (h : EntryWF q) :
    EntryWF (stepEntry e q) := by
  cases e <;> simp only [stepEntry] <;> try exact h
  all_goals
    split
    · intro hst
      simp_all [EntryWF]
    · exact h

/-- `stepEntry` never changes a non-null `assignedSession` of a
well-formed entry. -/
theorem assignedSession_stepEntry (e : Event) (q : QueueEntry) (s : String)
    (hwf : EntryWF q) (hs : q.assignedSession = some s) :
    (stepEntry e q).assignedSession = some s := by
  cases e <;> simp only [stepEntry] <;> try exact hs
  all_goals
    split
    · rename_i h
      first
        | (exact absurd (hwf h.2) (by simp [hs]))
        | exact hs
    · exact hs

/-- Folding any further events over a well-formed entry whose
`assignedSession` is already non-null never changes it. -/
theorem assignedSession_foldl (es : List Event) (q : QueueEntry) (s : String)
    (hwf : EntryWF q) (hs : q.assignedSession = some s) :
    (es.foldl (fun a e => stepEntry e a) q).assignedSession = some s := by
  induction es generalizing q with
  | nil => exact hs
  | cons e es ih =>
      exact ih (stepEntry e q) (entryWF_stepEntry e q hwf)
        (assignedSession_stepEntry e q s hwf hs)

/-- Every entry of the queue of a fold starting from a well-formed queue
is well-formed. -/
theorem foldl_queue_wf (log : List Event) (st : ProjState)
    (h : ∀ q ∈ st.queue, EntryWF q) :
    ∀ q ∈ (log.foldl applyEvent st).queue, EntryWF q := by
  induction log generalizing st with
  | nil => exact h
  | cons e es ih =>
      refine ih (applyEvent st e) ?_
      intro q hq
      cases e <;> simp only [applyEvent] at hq
      case cellCreated id position cellType createdBy =>
        split at hq <;> exact h q hq
      case cellDeleted id => exact h q hq
      case cellMoved id newPosition => exact h q hq
      case executionRequested entryId cellId requestedBy =>
        split at hq
        · rcases List.mem_append.mp hq with hmem | hnew
          · exact h q hmem
          · intro _
            simp only [List.mem_singleton] at hnew
            subst hnew
            rfl
        · exact h q hq
      case kernelSessionHeartbeat sessionId status now => exact h q hq
      all_goals
        (rcases List.mem_map.mp hq with ⟨q', hq', rfl⟩
         exact entryWF_stepEntry _ q' (h q' hq'))

/-- Every entry of a replayed projection is well-formed. -/
theorem mem_replay_wf (log : List Event) (q : QueueEntry)
    (h : q ∈ (replay log).queue) : EntryWF q :=
  foldl_queue_wf log initState (by intro q hq; simp [initState] at hq) q h

/-- A traversal of the materializers computes the fold. -/
theorem materialize_eq_foldl {st st' : ProjState} {es : List Event}
    (h : Materialize st es st') : st' = es.foldl applyEvent st := by
  induction h with
  | nil => rfl
  | cons st e es st' _ ih => exact ih

/-- Every member of a list of integers is at most the JavaScript running
maximum seeded at the head. -/
theorem le_jsMax (l : List Int) (x : Int) (h : x ∈ l) : x ≤ jsMax l := by
  have key : ∀ (ys : List Int) (init : Int),
      init ≤ ys.foldl max init ∧ ∀ y ∈ ys, y ≤ ys.foldl max init := by
    intro ys
    induction ys with
    | nil => intro init; exact ⟨le_refl _, by intro y hy; cases hy⟩
    | cons z zs ih =>
        intro init
        refine ⟨?_, ?_⟩
        · exact le_trans (le_max_left init z) (ih (max init z)).1
        · intro y hy
          rcases List.mem_cons.mp hy with rfl | hy'
          · exact le_trans (le_max_right init y) (ih (max init y)).1
          · exact (ih (max init z)).2 y hy'
  cases l with
  | nil => cases h
  | cons z zs =>
      rcases List.mem_cons.mp h with rfl | h'
      · exact (key zs x).1
      · exact (key zs z).2 x h'

/-! ## Claim theorems. -/

/-- C2: for every queue entry and every event applied to it, the entry's
status either stays put or moves along one forward edge of
`pending→assigned→executing→{completed|failed}`; no event moves the
status backward or skips a state. -/
theorem status_forward_only (e : Event) (q : QueueEntry) :
    (stepEntry e q).status = q.status
    ∨ forwardStep q.status (stepEntry e q).status = true := by
  cases e <;> simp only [stepEntry] <;> try exact Or.inl trivial
  all_goals
    split
    · rename_i h
      right
      first
        | (rw [h.2]; rfl)
        | (rw [h.2.1]; rfl)
    · exact Or.inl rfl

/-- C4: a session whose last heartbeat is at least the timeout threshold
in the past is never an assignment target, even when its stored status is
`ready` and its `active` flag is set: `isEligible` is false and the
session is excluded from the assignment policy's target list. -/
theorem stale_session_not_selected (s : KernelSession) (now : Nat)
    (sessions : List KernelSession)
    (h : HEARTBEAT_TIMEOUT ≤ now - s.lastHeartbeat) :
    isEligible s now = false ∧ s ∉ assignmentTargets sessions now := by
  have hlt : ¬ (now - s.lastHeartbeat < HEARTBEAT_TIMEOUT) := by omega
  have he : isEligible s now = false := by
    simp only [isEligible, decide_eq_false_iff_not]
    rintro ⟨-, -, hc⟩
    exact hlt hc
  refine ⟨he, ?_⟩
  intro hmem
  rw [assignmentTargets, List.mem_filter, he] at hmem
  exact Bool.false_ne_true hmem.2

/-- Witness for C4: the concrete ready, active session with heartbeat at
instant 0 is ineligible and unselected at instant 30. -/
theorem stale_session_not_selected_witness :
    isEligible staleSession 30 = false
    ∧ staleSession ∉ assignmentTargets [staleSession] 30 :=
  stale_session_not_selected staleSession 30 [staleSession] (by decide)

/-- C5: a `start` on an `assigned` entry takes effect (the status becomes
`executing`) exactly when the issuing session matches the entry's
`assignedSession`; on a mismatch the event is ignored and the entry is
unchanged. -/
theorem start_requires_session_match (q : QueueEntry) (sid other : String)
    (hst : q.status = .assigned) (hs : q.assignedSession = some sid) :
    stepEntry (.executionStarted q.id sid) q = { q with status := .executing }
    ∧ (other ≠ sid → stepEntry (.executionStarted q.id other) q = q) := by
  constructor
  · rw [stepEntry, if_pos ⟨rfl, hst, hs⟩]
  · intro hne
    rw [stepEntry, if_neg]
    rintro ⟨-, -, hsession⟩
    rw [hs] at hsession
    exact hne (Option.some_injective _ hsession.symm)

/-- Witness for C5: on the concrete assigned entry, `start` from the
owning session `s1` moves it to `executing`, and `start` from the other
session `s2` leaves it unchanged. -/
theorem start_requires_session_match_witness :
    stepEntry (.executionStarted entryAssigned.id "s1") entryAssigned
        = { entryAssigned with status := .executing }
    ∧ stepEntry (.executionStarted entryAssigned.id "s2") entryAssigned
        = entryAssigned := by
  have h := start_requires_session_match entryAssigned "s1" "s2" rfl rfl
  exact ⟨h.1, h.2 (by decide)⟩

/-- C8: every response of the kernel process's HTTP handler is one of the
OPTIONS preflight 200, the `/health` 200 body, the `/status` 200 body, or
a 404; and no request makes the handler commit any domain event, so no
HTTP request causes cell execution or state mutation. -/
theorem handler_read_only (env : KernelEnv) (req : Request) :
    (requestHandler env req).2 = []
    ∧ ((requestHandler env req).1 = { code := 200, body := .empty }
       ∨ (requestHandler env req).1 = { code := 200, body := .health (healthBody env) }
       ∨ (requestHandler env req).1 = { code := 200, body := .statusReport (statusBody env) }
       ∨ (requestHandler env req).1 = { code := 404, body := .notFound }) := by
  unfold requestHandler
  split
  · exact ⟨rfl, Or.inl rfl⟩
  · split
    · exact ⟨rfl, Or.inr (Or.inl rfl)⟩
    · split
      · exact ⟨rfl, Or.inr (Or.inr (Or.inl rfl))⟩
      · exact ⟨rfl, Or.inr (Or.inr (Or.inr rfl))⟩

/-- C1: for every queue entry of a replayed projection, an `assign` on an
already-assigned or terminal entry is a no-op; the first `assign` on a
`pending` entry takes effect and sets `assignedSession`; and once
`assignedSession` is non-null, no subsequent sequence of events ever
changes it — so the field holds at most one non-null value for the
entry's entire lifetime. -/
theorem assign_at_most_once (log : List Event) (q : QueueEntry)
    (sid eid s : String) (es : List Event)
    (hq : q ∈ (replay log).queue) :
    (q.status ≠ .pending → stepEntry (.executionAssigned eid sid) q = q)
    ∧ (q.status = .pending →
        (stepEntry (.executionAssigned q.id sid) q).assignedSession = some sid
        ∧ (stepEntry (.executionAssigned q.id sid) q).status = .assigned)
    ∧ (q.assignedSession = some s →
        (es.foldl (fun a e => stepEntry e a) q).assignedSession = some s) := by
  refine ⟨?_, ?_, ?_⟩
  · intro hne
    rw [stepEntry, if_neg]
    rintro ⟨-, hpend⟩
    exact hne hpend
  · intro hpend
    rw [stepEntry, if_pos ⟨rfl, hpend⟩]
    exact ⟨rfl, rfl⟩
  · intro hs
    exact assignedSession_foldl es q s (mem_replay_wf log q hq) hs

/-- Witness for C1: the pending entry of `logC1` gets session `s1` from
its first assign; the already-assigned entry of `logC2` ignores a second
assign from `s2` and keeps `assignedSession = s1` under further events. -/
theorem assign_at_most_once_witness :
    (entryE1 ∈ (replay logC1).queue
      ∧ (stepEntry (.executionAssigned entryE1.id "s1") entryE1).assignedSession = some "s1")
    ∧ (entryAssigned ∈ (replay logC2).queue
      ∧ stepEntry (.executionAssigned "e1" "s2") entryAssigned = entryAssigned
      ∧ ([Event.executionAssigned "e1" "s2"].foldl
            (fun a e => stepEntry e a) entryAssigned).assignedSession = some "s1") := by
  constructor
  · have h := assign_at_most_once logC1 entryE1 "s1" "e1" "s1" [] (by decide)
    exact ⟨by decide, (h.2.1 rfl).1⟩
  · have h := assign_at_most_once logC2 entryAssigned "s2" "e1" "s1"
      [Event.executionAssigned "e1" "s2"] (by decide)
    exact ⟨by decide, h.1 (by decide), h.2.2 rfl⟩

/-- C3: the projection is deterministic — any two runs of the
materializers over the same full event log from the empty state produce
the same state, namely the fold `replay log`. -/
theorem projection_deterministic (log : List Event) (st₁ st₂ : ProjState)
    (h₁ : Materialize initState log st₁) (h₂ : Materialize initState log st₂) :
    st₁ = st₂ ∧ st₁ = replay log := by
  have e₁ := materialize_eq_foldl h₁
  have e₂ := materialize_eq_foldl h₂
  exact ⟨e₁.trans e₂.symm, e₁⟩

/-- Witness for C3: a concrete materializer run over the one-event log
`logW`. -/
theorem projection_deterministic_witness :
    Materialize initState logW (replay logW)
    ∧ (replay logW = replay logW ∧ replay logW = replay logW) := by
  have h : Materialize initState logW (replay logW) :=
    Materialize.cons _ _ _ _ (Materialize.nil _)
  exact ⟨h, projection_deterministic logW (replay logW) (replay logW) h h⟩

/-- C6: the dispatcher triggers no execution on a fixed-interval timer
tick; it triggers exactly the queue entries matching its subscription
(`assignedSession` equal to its own session id and status `assigned`)
when the log advances, re-evaluated over the projected state of the
advanced log. -/
theorem dispatch_push_based (mySessionId : String) (log : List Event) (q : QueueEntry) :
    dispatch mySessionId Stimulus.timerTick = []
    ∧ (q ∈ dispatch mySessionId (Stimulus.logAdvance log) ↔
        q ∈ (replay log).queue ∧ q.assignedSession = some mySessionId
          ∧ q.status = .assigned) := by
  refine ⟨rfl, ?_⟩
  simp [dispatch, assignedWorkQuery, List.mem_filter]

/-- C7 counterexample: two live cells with the same position and
identifiers out of input order.  The source's `sortedCells` keeps the
input order (stable sort by position only), while an order with ties
broken by identifier would swap them — so display order is not
determined by position with ties broken by identifier. -/
theorem order_not_by_identifier :
    sortedCells [cellB, cellA] = [cellB, cellA]
    ∧ List.insertionSort byPositionThenId [cellB, cellA] = [cellA, cellB]
    ∧ ([cellB, cellA] : List Cell) ≠ [cellA, cellB] := by decide

/-- C7 amended: display order is determined by position via a stable
ascending sort — the result is sorted by position, is a permutation of
the live cells, and two cells already in relative position order (in
particular, cells transiently holding the same position) keep their
input order; ties are broken by input order, not by identifier.  The
result is deterministic for a given input list. -/
theorem cell_order_deterministic (cells : List Cell) (a b : Cell) :
    List.Sorted byPosition (sortedCells cells)
    ∧ List.Perm (sortedCells cells) cells
    ∧ (byPosition a b → List.Sublist [a, b] cells → List.Sublist [a, b] (sortedCells cells)) := by
  refine ⟨List.sorted_insertionSort byPosition cells,
    List.perm_insertionSort byPosition cells, ?_⟩
  intro hab hsub
  exact List.pair_sublist_insertionSort hab hsub

/-- Witness for C7 (amended): on the concrete two-cell tie, the sort is
sorted, is a permutation, and keeps the tied pair in input order. -/
theorem cell_order_deterministic_witness :
    List.Sorted byPosition (sortedCells [cellB, cellA])
    ∧ List.Perm (sortedCells [cellB, cellA]) [cellB, cellA]
    ∧ List.Sublist [cellB, cellA] (sortedCells [cellB, cellA]) := by
  have h := cell_order_deterministic [cellB, cellA] cellB cellA
  exact ⟨h.1, h.2.1, h.2.2 (by decide) (List.Sublist.refl _)⟩

/-- C9 counterexample: with `AUTH_TOKEN` set to the empty string — a set
value, but falsy in JavaScript — the `/status` env field is
`"[NOT SET]"`, not `"[REDACTED]"`. -/
theorem auth_token_empty_not_redacted :
    (statusBody { envBase with authToken := some "" }).env.authToken = "[NOT SET]"
    ∧ "[NOT SET]" ≠ "[REDACTED]" := by decide

/-- C9 amended: the `/status` response never contains the `AUTH_TOKEN`
credential: for any two runs differing only in a non-empty set value of
`AUTH_TOKEN` the whole response is identical with the env field
`"[REDACTED]"`; when the variable is unset the field is `"[NOT SET]"`;
and in every run the field is one of those two constants. -/
theorem auth_token_never_leaked (env : KernelEnv) (t₁ t₂ : String)
    (h₁ : t₁ ≠ "") (h₂ : t₂ ≠ "") :
    statusBody { env with authToken := some t₁ }
        = statusBody { env with authToken := some t₂ }
    ∧ (statusBody { env with authToken := some t₁ }).env.authToken = "[REDACTED]"
    ∧ (statusBody { env with authToken := none }).env.authToken = "[NOT SET]"
    ∧ ((statusBody env).env.authToken = "[REDACTED]"
       ∨ (statusBody env).env.authToken = "[NOT SET]") := by
  have e₁ : envTruthy (some t₁) = true := by simp [envTruthy, h₁]
  have e₂ : envTruthy (some t₂) = true := by simp [envTruthy, h₂]
  refine ⟨?_, ?_, rfl, ?_⟩
  · simp [statusBody, e₁, e₂]
  · simp [statusBody, e₁]
  · by_cases h : envTruthy env.authToken = true
    · exact Or.inl (by simp [statusBody, h])
    · exact Or.inr (by simp [statusBody, h])

/-- Witness for C9 (amended): two concrete runs with distinct non-empty
tokens produce identical responses with the field redacted; the unset
run reports not-set. -/
theorem auth_token_never_leaked_witness :
    statusBody { envBase with authToken := some "tok1" }
        = statusBody { envBase with authToken := some "tok2" }
    ∧ (statusBody { envBase with authToken := some "tok1" }).env.authToken = "[REDACTED]"
    ∧ (statusBody { envBase with authToken := none }).env.authToken = "[NOT SET]"
    ∧ ((statusBody envBase).env.authToken = "[REDACTED]"
       ∨ (statusBody envBase).env.authToken = "[NOT SET]") :=
  auth_token_never_leaked envBase "tok1" "tok2" (by decide) (by decide)

/-- C10 counterexample: with one existing cell at position 5, calling
`addCell` with the empty string as `afterCellId` — a passed argument,
but falsy in JavaScript — assigns position `cells.length = 1`, not
`max(existing positions) + 1 = 6`. -/
theorem addCell_empty_after_id :
    newPosition [cellP5] (some "") = 1
    ∧ jsMax ([cellP5].map (fun c => c.position)) + 1 = 6
    ∧ (1 : Int) ≠ 6 := by decide

/-- C10 amended: for every non-empty cell list, `addCell` with a
non-empty `afterCellId` assigns `max(existing positions) + 1` — strictly
after every existing cell, regardless of which `afterCellId` was passed —
while with no `afterCellId`, or with the empty string (falsy in
JavaScript), it assigns the current number of cells. -/
theorem addCell_position_after_all (cells : List Cell) (s : String) (c : Cell)
    (hs : s ≠ "") (hc : c ∈ cells) :
    newPosition cells (some s) = jsMax (cells.map (fun x => x.position)) + 1
    ∧ c.position < newPosition cells (some s)
    ∧ newPosition cells none = (cells.length : Int)
    ∧ newPosition cells (some "") = (cells.length : Int) := by
  have ht : envTruthy (some s) = true := by simp [envTruthy, hs]
  have hmax : newPosition cells (some s)
      = jsMax (cells.map (fun x => x.position)) + 1 := by
    simp [newPosition, ht]
  refine ⟨hmax, ?_, rfl, rfl⟩
  rw [hmax]
  have hle : c.position ≤ jsMax (cells.map (fun x => x.position)) :=
    le_jsMax _ _ (List.mem_map.mpr ⟨c, hc, rfl⟩)
  omega

/-- Witness for C10 (amended): on the one-cell list at position 5,
`addCell` after a non-empty id gives 6 (after the existing cell); with no
or an empty `afterCellId`, 1. -/
theorem addCell_position_after_all_witness :
    newPosition [cellP5] (some "x") = 6
    ∧ cellP5.position < newPosition [cellP5] (some "x")
    ∧ newPosition [cellP5] none = 1
    ∧ newPosition [cellP5] (some "") = 1 := by
  have h := addCell_position_after_all [cellP5] "x" cellP5 (by decide) (by decide)
  exact ⟨h.1.trans (by decide), h.2.1, h.2.2.1, h.2.2.2⟩

end Anode
